import Mathlib

/-!
Verification of the employee CRUD API (Express + Mongoose teaching repository).

The embedding models:
* JavaScript values as far as the handlers inspect them (truthiness checks in
  `if (!field)` presence validation);
* the `employees` collection as a list of documents, with the Mongoose driver
  calls `find`, `findOne`, `findOneAndUpdate`, `findOneAndDelete` and `save`
  embedded as operations on that list (`findOne`-style methods act on the first
  matching document);
* each of the five route handlers (`createEmployee.js`, the two routes of
  `readEmployee.js`, the update route, `deleteEmployee.js`) as a function from
  the collection state and the request data to an HTTP response together with
  the collection state after the call.  A driver call that the handler awaits
  can throw; this environment outcome is passed in as an `Option String`
  (`some m` = the awaited call throws an error with message `m`, landing in the
  handler's `catch` block, which answers 400 with that message).
* the Mongoose schema of `models/Employee.js` as a literal field-by-field
  description (types, `required`, `unique`, validators), and the route table of
  `app.js` as the list of (method, mounted path) pairs it registers.
-/

namespace MenCrud

/-- A JavaScript value, as far as the route handlers distinguish values:
strings, numbers, booleans and null (also standing for `undefined`). -/
inductive JSValue where
  | vStr (s : String)
  | vNum (n : Int)
  | vBool (b : Bool)
  | vNull
deriving DecidableEq, Repr

/-- JavaScript truthiness: `""`, `0`, `false` and `null`/`undefined` are falsy;
this is what `if (!x)` tests in the handlers. -/
def truthy : JSValue → Bool
  | .vStr s => !(s == "")
  | .vNum n => !(n == 0)
  | .vBool b => b
  | .vNull => false

/-- Truthiness of a destructured request-body property: a property absent from
`req.body` destructures to `undefined`, which is falsy. -/
def fieldTruthy : Option JSValue → Bool
  | none => false
  | some v => truthy v

/-- An employee document of the `employees` collection.  The schema declares
`employee_id`, `name`, `email`, `job_title` as strings, `age` as a number and
`date_hired` as a date; the handlers store the request-body values. -/
structure EmployeeDoc where
  employee_id : JSValue
  name : JSValue
  email : JSValue
  job_title : JSValue
  age : JSValue
  date_hired : JSValue
deriving DecidableEq, Repr

/-- A JSON request body, one optional property per schema field
(`none` = the property is absent from `req.body`). -/
structure ReqBody where
  employee_id : Option JSValue
  name : Option JSValue
  email : Option JSValue
  job_title : Option JSValue
  age : Option JSValue
  date_hired : Option JSValue
deriving DecidableEq, Repr

/-- The JSON payload of a response: a `{ message: ... }` object, a single
employee document, or a list of documents. -/
inductive ResBody where
  | msg (s : String)
  | doc (d : EmployeeDoc)
  | docs (ds : List EmployeeDoc)
deriving DecidableEq, Repr

/-- An HTTP response as the handlers build it: `res.status(code).json(body)`. -/
structure Response where
  status : Nat
  body : ResBody
deriving DecidableEq, Repr

/-- The query `{ employee_id }` used by `findOne`, `findOneAndUpdate` and
`findOneAndDelete`: the document's `employee_id` field equals the URL
parameter (a string). -/
def matchesId (eid : String) (d : EmployeeDoc) : Bool :=
  d.employee_id == .vStr eid

/-- Replace the first document satisfying `p` by `d'`
(the write performed by `findOneAndUpdate`). -/
def replaceFirst (p : EmployeeDoc → Bool) (d' : EmployeeDoc) : List EmployeeDoc → List EmployeeDoc
  | [] => []
  | d :: ds => if p d then d' :: ds else d :: replaceFirst p d' ds

/-- Remove the first document satisfying `p`
(the write performed by `findOneAndDelete`). -/
def deleteFirst (p : EmployeeDoc → Bool) : List EmployeeDoc → List EmployeeDoc
  | [] => []
  | d :: ds => if p d then ds else d :: deleteFirst p ds

/-- The document built by `new Employee({ employee_id, name, email, job_title,
age, date_hired })` in the create handler (after validation every property is
present, so the `.vNull` defaults are never reached on that path). -/
def newEmployeeOf (body : ReqBody) : EmployeeDoc :=
  ⟨body.employee_id.getD .vNull, body.name.getD .vNull, body.email.getD .vNull,
   body.job_title.getD .vNull, body.age.getD .vNull, body.date_hired.getD .vNull⟩

/-- `router.post('/')` of `routes/createEmployee.js`: destructure the six body
fields, answer 400 if any is falsy, otherwise save the new document (if the
awaited `save()` throws, the catch block answers 400 with the error message)
and answer 201 with the saved document. -/
def createEmployee (db : List EmployeeDoc) (body : ReqBody) (saveErr : Option String) :
    Response × List EmployeeDoc :=
  if !(fieldTruthy body.employee_id) || !(fieldTruthy body.name) ||
     !(fieldTruthy body.email) || !(fieldTruthy body.job_title) ||
     !(fieldTruthy body.age) || !(fieldTruthy body.date_hired) then
    (⟨400, .msg "All fields are required."⟩, db)
  else
    match saveErr with
    | some m => (⟨400, .msg m⟩, db)
    | none => (⟨201, .doc (newEmployeeOf body)⟩, db ++ [newEmployeeOf body])

/-- `router.get('/')` of `routes/readEmployee.js`: `Employee.find()` returns
all documents; an empty result answers 404 with `No employees found`,
otherwise 200 with the list.  A throwing `find()` lands in the catch block. -/
def readAllEmployees (db : List EmployeeDoc) (findErr : Option String) :
    Response × List EmployeeDoc :=
  match findErr with
  | some m => (⟨400, .msg m⟩, db)
  | none =>
    if db.length == 0 then (⟨404, .msg "No employees found"⟩, db)
    else (⟨200, .docs db⟩, db)

/-- `router.get('/:employee_id')` of `routes/readEmployee.js`:
`Employee.findOne({ employee_id })`, 404 with a not-found message when no
document matches, 200 with the document otherwise. -/
def readOneEmployee (db : List EmployeeDoc) (eid : String) (findErr : Option String) :
    Response × List EmployeeDoc :=
  match findErr with
  | some m => (⟨400, .msg m⟩, db)
  | none =>
    match db.find? (matchesId eid) with
    | none => (⟨404, .msg ("Employee with ID " ++ eid ++ " not found")⟩, db)
    | some e => (⟨200, .doc e⟩, db)

/-- The update object `{ name, email, job_title, age, date_hired }` passed to
`findOneAndUpdate`: the five body fields overwrite the document's fields;
`employee_id` is not among them. -/
def applyUpdate (body : ReqBody) (d : EmployeeDoc) : EmployeeDoc :=
  { d with
    name := body.name.getD .vNull
    email := body.email.getD .vNull
    job_title := body.job_title.getD .vNull
    age := body.age.getD .vNull
    date_hired := body.date_hired.getD .vNull }

/-- `router.put('/:employee_id')` of the update route: destructure the five
body fields (the body's `employee_id` is skipped), answer 400 if any is falsy,
then `findOneAndUpdate({ employee_id }, { ...five fields }, { new: true })`:
404 when no document matches, otherwise 200 with the updated document. -/
def updateEmployee (db : List EmployeeDoc) (eid : String) (body : ReqBody)
    (updErr : Option String) : Response × List EmployeeDoc :=
  if !(fieldTruthy body.name) || !(fieldTruthy body.email) ||
     !(fieldTruthy body.job_title) || !(fieldTruthy body.age) ||
     !(fieldTruthy body.date_hired) then
    (⟨400, .msg "All fields are required."⟩, db)
  else
    match updErr with
    | some m => (⟨400, .msg m⟩, db)
    | none =>
      match db.find? (matchesId eid) with
      | none =>
        (⟨404, .msg ("Employee with employee_id " ++ eid ++ " not found")⟩, db)
      | some d =>
        (⟨200, .doc (applyUpdate body d)⟩,
         replaceFirst (matchesId eid) (applyUpdate body d) db)

/-- `router.delete('/:employee_id')` of `routes/deleteEmployee.js`:
`findOneAndDelete({ employee_id })`, 404 with a not-found message when no
document matches, otherwise 200 with a success message naming the id. -/
def deleteEmployee (db : List EmployeeDoc) (eid : String) (delErr : Option String) :
    Response × List EmployeeDoc :=
  match delErr with
  | some m => (⟨400, .msg m⟩, db)
  | none =>
    match db.find? (matchesId eid) with
    | none =>
      (⟨404, .msg ("Employee with employee_id " ++ eid ++ " not found")⟩, db)
    | some _ =>
      (⟨200, .msg ("Employee with employee_id " ++ eid ++ " deleted successfully")⟩,
       deleteFirst (matchesId eid) db)

/-- The Mongoose type of a schema field. -/
inductive SchemaType where
  | sString
  | sNumber
  | sDate
deriving DecidableEq, Repr

/-- One field declaration of the Mongoose schema: its type and the validators
attached to it (`required`, `unique`, `minlength`, `min`, `max`, `enum`,
`match`).  Validators absent from a field are `none`/`false`. -/
structure FieldSpec where
  fname : String
  ftype : SchemaType
  required : Bool
  unique : Bool
  minlength : Option Nat
  minVal : Option Int
  maxVal : Option Int
  enumVals : Option (List String)
  matchPattern : Option String
deriving DecidableEq, Repr

/-- `employeeSchema` of `models/Employee.js`, field by field:
`employee_id` (String, required, unique), `name` (String, required,
minlength 3), `email` (String, match regex, unique), `job_title` (String,
required, enum of four titles), `age` (Number, required, min 19, max 120),
`date_hired` (Date, required). -/
def employeeSchema : List FieldSpec :=
  [⟨"employee_id", .sString, true, true, none, none, none, none, none⟩,
   ⟨"name", .sString, true, false, some 3, none, none, none, none⟩,
   ⟨"email", .sString, false, true, none, none, none, none,
    some "\\S+@\\S+\\.\\S+"⟩,
   ⟨"job_title", .sString, true, false, none, none, none,
    some ["Software Developer", "Product Manager", "Graphic Designer", "HR"], none⟩,
   ⟨"age", .sNumber, true, false, none, some 19, some 120, none, none⟩,
   ⟨"date_hired", .sDate, true, false, none, none, none, none, none⟩]

/-- An HTTP method. -/
inductive Method where
  | mGET
  | mPOST
  | mPUT
  | mDELETE
deriving DecidableEq, Repr

/-- The route registered by `routes/createEmployee.js`: `router.post('/')`. -/
def createRouterRoutes : List (Method × String) := [(.mPOST, "/")]

/-- The routes registered by `routes/readEmployee.js`: `router.get('/')` and
`router.get('/:employee_id')`. -/
def readRouterRoutes : List (Method × String) :=
  [(.mGET, "/"), (.mGET, "/:employee_id")]

/-- The route registered by the update route module: `router.put('/:employee_id')`. -/
def updateRouterRoutes : List (Method × String) := [(.mPUT, "/:employee_id")]

/-- The route registered by `routes/deleteEmployee.js`: `router.delete('/:employee_id')`. -/
def deleteRouterRoutes : List (Method × String) := [(.mDELETE, "/:employee_id")]

/-- Mount a router's routes under a base path, as `app.use(base, router)` does. -/
def mountAt (base : String) (rs : List (Method × String)) : List (Method × String) :=
  rs.map (fun r => (r.1, base ++ r.2))

/-- The full route table of `app.js`, in registration order: six
`app.use('/api/employees', ...)` calls (the read router is mounted three
times), then `app.get('/')` and two `app.get('/health')` calls. -/
def appRoutes : List (Method × String) :=
  mountAt "/api/employees" createRouterRoutes ++
  mountAt "/api/employees" readRouterRoutes ++
  mountAt "/api/employees" readRouterRoutes ++
  mountAt "/api/employees" readRouterRoutes ++
  mountAt "/api/employees" updateRouterRoutes ++
  mountAt "/api/employees" deleteRouterRoutes ++
  [(.mGET, "/")] ++
  [(.mGET, "/health"), (.mGET, "/health")]

/-- The five employee CRUD routes (one per operation), as mounted. -/
def employeeRoutes : List (Method × String) :=
  [(.mPOST, "/api/employees/"),
   (.mGET, "/api/employees/"),
   (.mGET, "/api/employees/:employee_id"),
   (.mPUT, "/api/employees/:employee_id"),
   (.mDELETE, "/api/employees/:employee_id")]

/-- The status codes of the REST conventions the handlers follow. -/
def okStatuses : List Nat := [200, 201, 400, 404]

/-- A sample employee document, used to instantiate the theorems. -/
def empA : EmployeeDoc :=
  ⟨.vStr "E1", .vStr "Alice", .vStr "alice@abc.com", .vStr "HR", .vNum 30,
   .vStr "2024-01-15"⟩

/-- A second sample employee document. -/
def empB : EmployeeDoc :=
  ⟨.vStr "E2", .vStr "Bob", .vStr "bob@abc.com", .vStr "Product Manager", .vNum 41,
   .vStr "2023-05-02"⟩

/-- A sample request body with all six properties present and truthy. -/
def fullBody : ReqBody :=
  ⟨some (.vStr "E3"), some (.vStr "Cara"), some (.vStr "cara@abc.com"),
   some (.vStr "Software Developer"), some (.vNum 28), some (.vStr "2025-03-01")⟩

/-! ### Helper lemmas about the embedded driver operations -/

theorem find?_eq_none_of_noMatch (p : EmployeeDoc → Bool) (db : List EmployeeDoc)
    (h : ∀ d ∈ db, p d = false) : db.find? p = none := by
  rw [List.find?_eq_none]
  intro x hx
  simp [h x hx]

theorem find?_eq_some_of_mem_unique (p : EmployeeDoc → Bool) (d : EmployeeDoc) :
    ∀ db : List EmployeeDoc, d ∈ db → p d = true →
      (db.filter p).length ≤ 1 → db.find? p = some d
  | [], hd, _, _ => absurd hd (List.not_mem_nil d)
  | x :: xs, hd, hp, hu => by
    by_cases hx : p x = true
    · rw [List.find?_cons_of_pos _ hx]
      rcases List.mem_cons.mp hd with h | h

      · rw [h]
      · exfalso
        have hnil : xs.filter p = [] := by
          rw [List.filter_cons_of_pos hx] at hu
          simp only [List.length_cons] at hu
          exact List.length_eq_zero.mp (by omega)
        have hmem : d ∈ xs.filter p := List.mem_filter.mpr ⟨h, hp⟩
        rw [hnil] at hmem
        exact List.not_mem_nil d hmem
    · have hxf : p x = false := by
        cases hpx : p x
        · rfl
        · exact absurd hpx hx
      rw [List.find?_cons_of_neg _ (by simp [hxf])]
      have hd' : d ∈ xs := by
        rcases List.mem_cons.mp hd with h | h
        · exact absurd (h ▸ hp) (by simp [hxf])
        · exact h
      apply find?_eq_some_of_mem_unique p d xs hd' hp
      rw [List.filter_cons_of_neg (by simp [hxf])] at hu
      exact hu

theorem replaceFirst_eq_map_of_unique (p : EmployeeDoc → Bool) (d' : EmployeeDoc) :
    ∀ db : List EmployeeDoc, (db.filter p).length ≤ 1 →
      replaceFirst p d' db = db.map (fun x => if p x then d' else x)
  | [], _ => rfl
  | x :: xs, hu => by
    by_cases hx : p x = true
    · have hnil : xs.filter p = [] := by
        rw [List.filter_cons_of_pos hx] at hu
        simp only [List.length_cons] at hu
        exact List.length_eq_zero.mp (by omega)
      have hxs : ∀ y ∈ xs, p y = false := by
        intro y hy
        cases hpy : p y
        · rfl
        · exfalso
          have : y ∈ xs.filter p := List.mem_filter.mpr ⟨hy, hpy⟩
          rw [hnil] at this
          exact List.not_mem_nil y this
      have hmap : xs.map (fun y => if p y then d' else y) = xs := by
        have : ∀ y ∈ xs, (fun y => if p y then d' else y) y = id y := by
          intro y hy
          simp [hxs y hy]
        rw [List.map_congr_left this, List.map_id]
      simp [replaceFirst, hx, hmap]
    · have hxf : p x = false := by
        cases hpx : p x
        · rfl
        · exact absurd hpx hx
      have hu' : (xs.filter p).length ≤ 1 := by
        rw [List.filter_cons_of_neg (by simp [hxf])] at hu
        exact hu
      simp [replaceFirst, hxf, replaceFirst_eq_map_of_unique p d' xs hu']

theorem deleteFirst_eq_filter_of_unique (p : EmployeeDoc → Bool) :
    ∀ db : List EmployeeDoc, (db.filter p).length ≤ 1 →
      deleteFirst p db = db.filter (fun x => !(p x))
  | [], _ => rfl
  | x :: xs, hu => by
    by_cases hx : p x = true
    · have hnil : xs.filter p = [] := by
        rw [List.filter_cons_of_pos hx] at hu
        simp only [List.length_cons] at hu
        exact List.length_eq_zero.mp (by omega)
      have hxs : ∀ y ∈ xs, p y = false := by
        intro y hy
        cases hpy : p y
        · rfl
        · exfalso
          have : y ∈ xs.filter p := List.mem_filter.mpr ⟨hy, hpy⟩
          rw [hnil] at this
          exact List.not_mem_nil y this
      have hfil : xs.filter (fun y => !(p y)) = xs :=
        List.filter_eq_self.mpr (by intro y hy; simp [hxs y hy])
      simp [deleteFirst, hx, hfil]
    · have hxf : p x = false := by
        cases hpx : p x
        · rfl
        · exact absurd hpx hx
      have hu' : (xs.filter p).length ≤ 1 := by
        rw [List.filter_cons_of_neg (by simp [hxf])] at hu
        exact hu
      simp [deleteFirst, hxf, deleteFirst_eq_filter_of_unique p xs hu']

theorem replaceFirst_of_find?_some (p : EmployeeDoc → Bool) (d' : EmployeeDoc) :
    ∀ (db : List EmployeeDoc) (d : EmployeeDoc), db.find? p = some d →
      ∃ i : Fin db.length, db.get i = d ∧ p d = true ∧
        replaceFirst p d' db = db.set i d'
  | [], d, h => by simp [List.find?] at h
  | x :: xs, d, h => by
    by_cases hx : p x = true
    · have hxd : x = d := by
        rw [List.find?_cons_of_pos _ hx] at h
        exact Option.some.inj h
      exact ⟨⟨0, by simp⟩, by simp [hxd], hxd ▸ hx, by simp [replaceFirst, hx, List.set]⟩
    · have hxf : p x = false := by
        cases hpx : p x
        · rfl
        · exact absurd hpx hx
      have h' : xs.find? p = some d := by
        rw [List.find?_cons_of_neg _ (by simp [hxf])] at h
        exact h
      obtain ⟨i, hi1, hi2, hi3⟩ := replaceFirst_of_find?_some p d' xs d h'
      refine ⟨⟨i.1 + 1, by simp⟩, ?_, hi2, ?_⟩
      · simpa using hi1
      · simp [replaceFirst, hxf, List.set]
        exact hi3

theorem eq_of_mem_filter_unique (p : EmployeeDoc → Bool) (db : List EmployeeDoc)
    (hu : (db.filter p).length ≤ 1) (d x : EmployeeDoc) (hd : d ∈ db)
    (hpd : p d = true) (hx : x ∈ db) (hpx : p x = true) : x = d := by
  have hdf : d ∈ db.filter p := List.mem_filter.mpr ⟨hd, hpd⟩
  have hxf : x ∈ db.filter p := List.mem_filter.mpr ⟨hx, hpx⟩
  match hfp : db.filter p with
  | [] =>
    rw [hfp] at hdf
    exact absurd hdf (List.not_mem_nil d)
  | [y] =>
    rw [hfp] at hdf hxf
    simp only [List.mem_singleton] at hdf hxf
    rw [hdf, hxf]
  | y :: z :: t =>
    rw [hfp] at hu
    simp only [List.length_cons] at hu
    omega

/-! ### The claims -/

/-- Claim C1: for a POST to the collection route, if any of the six body fields
`employee_id`, `name`, `email`, `job_title`, `age`, `date_hired` is missing,
the create handler answers 400 with message `All fields are required.` and the
collection is unchanged; if all six fields are present (passing the handler's
presence check) and the database save succeeds, it answers 201 with the saved
employee document, which is added to the collection. -/
theorem create_spec (db : List EmployeeDoc) (body : ReqBody) (saveErr : Option String) :
    ((body.employee_id = none ∨ body.name = none ∨ body.email = none ∨
      body.job_title = none ∨ body.age = none ∨ body.date_hired = none) →
      createEmployee db body saveErr
        = (⟨400, ResBody.msg "All fields are required."⟩, db)) ∧
    ((fieldTruthy body.employee_id = true ∧ fieldTruthy body.name = true ∧
      fieldTruthy body.email = true ∧ fieldTruthy body.job_title = true ∧
      fieldTruthy body.age = true ∧ fieldTruthy body.date_hired = true ∧
      saveErr = none) →
      createEmployee db body saveErr
        = (⟨201, ResBody.doc (newEmployeeOf body)⟩, db ++ [newEmployeeOf body])) := by
  constructor
  · rintro (h | h | h | h | h | h) <;> simp [createEmployee, h, fieldTruthy]
  · rintro ⟨h1, h2, h3, h4, h5, h6, h7⟩
    simp [createEmployee, h1, h2, h3, h4, h5, h6, h7]

theorem create_spec_witness :
    createEmployee [empA] { fullBody with email := none } none
      = (⟨400, ResBody.msg "All fields are required."⟩, [empA]) ∧
    createEmployee [empA] fullBody none
      = (⟨201, ResBody.doc (newEmployeeOf fullBody)⟩, [empA] ++ [newEmployeeOf fullBody]) :=
  ⟨(create_spec [empA] { fullBody with email := none } none).1
      (Or.inr (Or.inr (Or.inl rfl))),
   (create_spec [empA] fullBody none).2
      ⟨by decide, by decide, by decide, by decide, by decide, by decide, rfl⟩⟩

/-- Claim C2 counterexample: on the empty collection, with the driver call
succeeding, the read-all handler answers 404 (`No employees found`), not 200
with the empty list as the claim states. -/
theorem readAll_empty_counterexample :
    (readAllEmployees [] none).1.status = 404 ∧
    readAllEmployees [] none ≠ (⟨200, ResBody.docs []⟩, []) := by
  constructor
  · rfl
  · decide

/-- Claim C2 amended: when the driver `find()` call succeeds, the read-all
handler answers 200 with the list of all documents when the collection is
nonempty, and 404 with message `No employees found` when the collection is
empty; the collection is unchanged in both cases. -/
theorem readAll_spec (db : List EmployeeDoc) :
    (db = [] →
      readAllEmployees db none = (⟨404, ResBody.msg "No employees found"⟩, db)) ∧
    (db ≠ [] → readAllEmployees db none = (⟨200, ResBody.docs db⟩, db)) := by
  constructor
  · intro h
    subst h
    rfl
  · intro h
    have hlen : (db.length == 0) = false := by
      simp [List.length_eq_zero, h]
    simp [readAllEmployees, hlen]

theorem readAll_spec_witness :
    readAllEmployees [] none = (⟨404, ResBody.msg "No employees found"⟩, []) ∧
    readAllEmployees [empA] none = (⟨200, ResBody.docs [empA]⟩, [empA]) :=
  ⟨(readAll_spec []).1 rfl, (readAll_spec [empA]).2 (by simp)⟩

/-- Claim C5: for a GET naming a specific employee_id, the read handler answers
404 with a not-found message when no document matches that id, and 200 with
the matching document when one exists (unique, per the unique index on
`employee_id`); the collection is unchanged in both cases. -/
theorem readOne_spec (db : List EmployeeDoc) (eid : String) :
    ((∀ d ∈ db, matchesId eid d = false) →
      readOneEmployee db eid none
        = (⟨404, ResBody.msg ("Employee with ID " ++ eid ++ " not found")⟩, db)) ∧
    (∀ d ∈ db, matchesId eid d = true → (db.filter (matchesId eid)).length ≤ 1 →
      readOneEmployee db eid none = (⟨200, ResBody.doc d⟩, db)) := by
  constructor
  · intro h
    simp [readOneEmployee, find?_eq_none_of_noMatch _ _ h]
  · intro d hd hm hu
    simp [readOneEmployee, find?_eq_some_of_mem_unique (matchesId eid) d db hd hm hu]

theorem readOne_spec_witness :
    readOneEmployee [empA] "E9" none
      = (⟨404, ResBody.msg ("Employee with ID " ++ "E9" ++ " not found")⟩, [empA]) ∧
    readOneEmployee [empA] "E1" none = (⟨200, ResBody.doc empA⟩, [empA]) :=
  ⟨(readOne_spec [empA] "E9").1 (by decide),
   (readOne_spec [empA] "E1").2 empA (by decide) (by decide) (by decide)⟩

/-- Claim C3: for a PUT naming an employee_id whose body contains all five
fields `name`, `email`, `job_title`, `age`, `date_hired` (passing the
handler's presence check), the update handler sets those five fields of the
document whose employee_id matches the URL parameter (unique, per the unique
index) to the body values and answers 200 with the post-update document; it
answers 404 when no document has that employee_id, and 400 when any of the
five body fields is missing. -/
theorem update_spec (db : List EmployeeDoc) (eid : String) (body : ReqBody) :
    ((body.name = none ∨ body.email = none ∨ body.job_title = none ∨
      body.age = none ∨ body.date_hired = none) →
      ∀ e, updateEmployee db eid body e
        = (⟨400, ResBody.msg "All fields are required."⟩, db)) ∧
    ((fieldTruthy body.name = true ∧ fieldTruthy body.email = true ∧
      fieldTruthy body.job_title = true ∧ fieldTruthy body.age = true ∧
      fieldTruthy body.date_hired = true) →
      ((∀ d ∈ db, matchesId eid d = false) →
        updateEmployee db eid body none
          = (⟨404, ResBody.msg ("Employee with employee_id " ++ eid ++ " not found")⟩,
             db)) ∧
      (∀ d ∈ db, matchesId eid d = true → (db.filter (matchesId eid)).length ≤ 1 →
        updateEmployee db eid body none
          = (⟨200, ResBody.doc (applyUpdate body d)⟩,
             db.map (fun x => if matchesId eid x then applyUpdate body x else x)))) := by
  constructor
  · rintro (h | h | h | h | h) e <;> simp [updateEmployee, h, fieldTruthy]
  · rintro ⟨h1, h2, h3, h4, h5⟩
    constructor
    · intro h
      simp [updateEmployee, h1, h2, h3, h4, h5, find?_eq_none_of_noMatch _ _ h]
    · intro d hd hm hu
      have hf := find?_eq_some_of_mem_unique (matchesId eid) d db hd hm hu
      have hr := replaceFirst_eq_map_of_unique (matchesId eid) (applyUpdate body d) db hu
      have hmap : db.map (fun x => if matchesId eid x then applyUpdate body x else x)
          = db.map (fun x => if matchesId eid x then applyUpdate body d else x) := by
        apply List.map_congr_left
        intro x hx
        by_cases hpx : matchesId eid x = true
        · rw [eq_of_mem_filter_unique (matchesId eid) db hu d x hd hm hx hpx]
        · simp only [Bool.not_eq_true] at hpx
          simp [hpx]
      simp [updateEmployee, h1, h2, h3, h4, h5, hf, hr, hmap]

theorem update_spec_witness :
    updateEmployee [empA] "E1" { fullBody with name := none } none
      = (⟨400, ResBody.msg "All fields are required."⟩, [empA]) ∧
    updateEmployee [empA] "E9" fullBody none
      = (⟨404, ResBody.msg ("Employee with employee_id " ++ "E9" ++ " not found")⟩,
         [empA]) ∧
    updateEmployee [empA] "E1" fullBody none
      = (⟨200, ResBody.doc (applyUpdate fullBody empA)⟩,
         [empA].map (fun x => if matchesId "E1" x then applyUpdate fullBody x else x)) :=
  ⟨(update_spec [empA] "E1" { fullBody with name := none }).1 (Or.inl rfl) none,
   ((update_spec [empA] "E9" fullBody).2
      ⟨by decide, by decide, by decide, by decide, by decide⟩).1 (by decide),
   ((update_spec [empA] "E1" fullBody).2
      ⟨by decide, by decide, by decide, by decide, by decide⟩).2
      empA (by decide) (by decide) (by decide)⟩

/-- Claim C4: for a DELETE naming an employee_id, when a document with that id
exists (unique, per the unique index) exactly that document is removed from
the collection and the handler answers 200 with a success message naming the
id; when no such document exists, it answers 404 and the collection is
unchanged. -/
theorem delete_spec (db : List EmployeeDoc) (eid : String) :
    (∀ d ∈ db, matchesId eid d = true → (db.filter (matchesId eid)).length ≤ 1 →
      deleteEmployee db eid none
        = (⟨200, ResBody.msg ("Employee with employee_id " ++ eid
              ++ " deleted successfully")⟩,
           db.filter (fun x => !(matchesId eid x)))) ∧
    ((∀ d ∈ db, matchesId eid d = false) →
      deleteEmployee db eid none
        = (⟨404, ResBody.msg ("Employee with employee_id " ++ eid ++ " not found")⟩,
           db)) := by
  constructor
  · intro d hd hm hu
    have hf := find?_eq_some_of_mem_unique (matchesId eid) d db hd hm hu
    have he := deleteFirst_eq_filter_of_unique (matchesId eid) db hu
    simp [deleteEmployee, hf, he]
  · intro h
    simp [deleteEmployee, find?_eq_none_of_noMatch _ _ h]

theorem delete_spec_witness :
    deleteEmployee [empA, empB] "E1" none
      = (⟨200, ResBody.msg ("Employee with employee_id " ++ "E1"
            ++ " deleted successfully")⟩,
         [empA, empB].filter (fun x => !(matchesId "E1" x))) ∧
    deleteEmployee [empA, empB] "E9" none
      = (⟨404, ResBody.msg ("Employee with employee_id " ++ "E9" ++ " not found")⟩,
         [empA, empB]) :=
  ⟨(delete_spec [empA, empB] "E1").1 empA (by decide) (by decide) (by decide),
   (delete_spec [empA, empB] "E9").2 (by decide)⟩

/-- Claim C6 counterexample: `employee_id` is not the only schema field with a
unique constraint — the schema also declares `unique: true` on `email`. -/
theorem schema_unique_counterexample :
    ¬ (∀ f ∈ employeeSchema, f.unique = true → f.fname = "employee_id") := by
  decide

/-- Claim C6 amended: the employee schema declares unique constraints on
exactly two fields, `employee_id` and `email`. -/
theorem schema_unique_fields :
    (employeeSchema.filter (fun f => f.unique)).map (fun f => f.fname)
      = ["employee_id", "email"] := by
  decide

/-- Claim C7 counterexample: `app.js` registers the route `GET /health`,
which is not one of the five employee CRUD routes. -/
theorem routes_counterexample :
    (Method.mGET, "/health") ∈ appRoutes ∧
    (Method.mGET, "/health") ∉ employeeRoutes := by
  decide

/-- Claim C7 amended: the distinct routes the server exposes are the five
employee CRUD routes under `/api/employees` (POST and GET of the collection,
GET, PUT and DELETE by `:employee_id`) together with a root greeting route
`GET /` and a health route `GET /health`; the health route is registered
twice. -/
theorem routes_amended :
    appRoutes.dedup
      = employeeRoutes ++ [(Method.mGET, "/"), (Method.mGET, "/health")] ∧
    appRoutes.count (Method.mGET, "/health") = 2 := by
  constructor
  · decide
  · decide

/-- Claim C8: for every request handled by any of the five employee route
handlers, over every collection state, request body, URL parameter and driver
outcome, the HTTP status of the response is one of 200, 201, 400, 404. -/
theorem handlers_status_range (db : List EmployeeDoc) (eid : String) (body : ReqBody)
    (e : Option String) :
    (createEmployee db body e).1.status ∈ okStatuses ∧
    (readAllEmployees db e).1.status ∈ okStatuses ∧
    (readOneEmployee db eid e).1.status ∈ okStatuses ∧
    (updateEmployee db eid body e).1.status ∈ okStatuses ∧
    (deleteEmployee db eid e).1.status ∈ okStatuses := by
  refine ⟨?_, ?_, ?_, ?_, ?_⟩
  · unfold createEmployee
    split
    · simp [okStatuses]
    · cases e <;> simp [okStatuses]
  · unfold readAllEmployees
    cases e
    · rcases db with _ | ⟨x, xs⟩ <;> simp [okStatuses]
    · simp [okStatuses]
  · unfold readOneEmployee
    cases e
    · cases db.find? (matchesId eid) <;> simp [okStatuses]
    · simp [okStatuses]
  · unfold updateEmployee
    split
    · simp [okStatuses]
    · cases e
      · cases db.find? (matchesId eid) <;> simp [okStatuses]
      · simp [okStatuses]
  · unfold deleteEmployee
    cases e
    · cases db.find? (matchesId eid) <;> simp [okStatuses]
    · simp [okStatuses]

/-- Claim C9: for every successful (status 200) update, the `employee_id` of
the updated document is unchanged: any `employee_id` supplied in the request
body is ignored (the handler's result does not depend on it), only the URL
parameter selects the document, `employee_id` is not among the written
fields, and every document other than the matched one is unchanged (the new
collection is the old one with only the matched position overwritten). -/
theorem update_frame (db : List EmployeeDoc) (eid : String) (body : ReqBody) :
    (∀ (v : Option JSValue) (e : Option String),
      updateEmployee db eid { body with employee_id := v } e
        = updateEmployee db eid body e) ∧
    (∀ e : Option String, (updateEmployee db eid body e).1.status = 200 →
      ∃ i : Fin db.length,
        matchesId eid (db.get i) = true ∧
        (applyUpdate body (db.get i)).employee_id = (db.get i).employee_id ∧
        updateEmployee db eid body e
          = (⟨200, ResBody.doc (applyUpdate body (db.get i))⟩,
             db.set i (applyUpdate body (db.get i)))) := by
  constructor
  · intro v e
    rfl
  · intro e hs
    cases hval : (!(fieldTruthy body.name) || !(fieldTruthy body.email) ||
        !(fieldTruthy body.job_title) || !(fieldTruthy body.age) ||
        !(fieldTruthy body.date_hired)) with
    | true =>
      have hcomp : updateEmployee db eid body e
          = (⟨400, ResBody.msg "All fields are required."⟩, db) := by
        unfold updateEmployee
        rw [if_pos hval]
      rw [hcomp] at hs
      simp at hs
    | false =>
      cases e with
      | some m =>
        have hcomp : updateEmployee db eid body (some m) = (⟨400, ResBody.msg m⟩, db) := by
          unfold updateEmployee
          rw [if_neg (by simp [hval])]
        rw [hcomp] at hs
        simp at hs
      | none =>
        cases hfind : db.find? (matchesId eid) with
        | none =>
          have hcomp : updateEmployee db eid body none
              = (⟨404, ResBody.msg ("Employee with employee_id " ++ eid
                    ++ " not found")⟩, db) := by
            unfold updateEmployee
            rw [if_neg (by simp [hval])]
            dsimp only
            rw [hfind]
          rw [hcomp] at hs
          simp at hs
        | some d =>
          have hcomp : updateEmployee db eid body none
              = (⟨200, ResBody.doc (applyUpdate body d)⟩,
                 replaceFirst (matchesId eid) (applyUpdate body d) db) := by
            unfold updateEmployee
            rw [if_neg (by simp [hval])]
            dsimp only
            rw [hfind]
          obtain ⟨i, hi1, hi2, hi3⟩ :=
            replaceFirst_of_find?_some (matchesId eid) (applyUpdate body d) db d hfind
          subst hi1
          exact ⟨i, hi2, rfl, by rw [hcomp, hi3]⟩

theorem update_frame_witness :
    (updateEmployee [empA] "E1" { fullBody with employee_id := some (JSValue.vStr "ZZ") }
        none
      = updateEmployee [empA] "E1" fullBody none) ∧
    (∃ i : Fin ([empA] : List EmployeeDoc).length,
      matchesId "E1" (([empA] : List EmployeeDoc).get i) = true ∧
      (applyUpdate fullBody (([empA] : List EmployeeDoc).get i)).employee_id
        = (([empA] : List EmployeeDoc).get i).employee_id ∧
      updateEmployee [empA] "E1" fullBody none
        = (⟨200, ResBody.doc (applyUpdate fullBody (([empA] : List EmployeeDoc).get i))⟩,
           ([empA] : List EmployeeDoc).set i
             (applyUpdate fullBody (([empA] : List EmployeeDoc).get i)))) :=
  ⟨(update_frame [empA] "E1" fullBody).1 (some (JSValue.vStr "ZZ")) none,
   (update_frame [empA] "E1" fullBody).2 none (by decide)⟩

/-- Claim C10: the presence validation of the create and update handlers
rejects falsy field values, not only absent fields: a required field present
but equal to `0`, the empty string, `false` or `null` makes the handler
answer 400 with message `All fields are required.`, exactly as if the field
were missing. -/
theorem falsy_validation (db : List EmployeeDoc) (eid : String) (body : ReqBody)
    (e : Option String) :
    ((∃ v, truthy v = false ∧ (body.employee_id = some v ∨ body.name = some v ∨
        body.email = some v ∨ body.job_title = some v ∨ body.age = some v ∨
        body.date_hired = some v)) →
      createEmployee db body e
        = (⟨400, ResBody.msg "All fields are required."⟩, db)) ∧
    ((∃ v, truthy v = false ∧ (body.name = some v ∨ body.email = some v ∨
        body.job_title = some v ∨ body.age = some v ∨ body.date_hired = some v)) →
      updateEmployee db eid body e
        = (⟨400, ResBody.msg "All fields are required."⟩, db)) := by
  constructor
  · rintro ⟨v, hv, (h | h | h | h | h | h)⟩ <;>
      simp [createEmployee, h, fieldTruthy, hv]
  · rintro ⟨v, hv, (h | h | h | h | h)⟩ <;>
      simp [updateEmployee, h, fieldTruthy, hv]

theorem falsy_validation_witness :
    createEmployee [empA] { fullBody with age := some (JSValue.vNum 0) } none
      = (⟨400, ResBody.msg "All fields are required."⟩, [empA]) ∧
    updateEmployee [empA] "E1" { fullBody with email := some (JSValue.vStr "") } none
      = (⟨400, ResBody.msg "All fields are required."⟩, [empA]) :=
  ⟨(falsy_validation [empA] "E1" { fullBody with age := some (JSValue.vNum 0) } none).1
      ⟨JSValue.vNum 0, by decide, Or.inr (Or.inr (Or.inr (Or.inr (Or.inl rfl))))⟩,
   (falsy_validation [empA] "E1" { fullBody with email := some (JSValue.vStr "") } none).2
      ⟨JSValue.vStr "", by decide, Or.inr (Or.inl rfl)⟩⟩

end MenCrud
